import Mathlib

/-!
Verification of the concurrent data-collection and snapshot-persistence loop of
`lab_3_data_script.py` (repository Brandon102002/ugastro).

The script runs four worker loops — telescope pointing, spectrometer polling,
SDR polling and a periodic snapshot writer — over one shared append-only buffer
guarded by a lock, bounded by a shared termination flag.

Shallow embedding: each loop is a pure Lean function from an explicit
per-iteration environment (the values the loop would observe at that iteration:
the termination flag, the elapsed wall-clock time, the hardware adapter's
response, the current UTC timestamp) to the list of externally visible events it
performs and the resulting buffer.  Python dicts and JSON values are modelled by
an inductive `Json` type (objects as ordered association lists, exactly the
iteration order a Python dict preserves); `json.dump` / `json.load` are modelled
at the token level by a serializer `Json.toTokens` and a parser `Json.parse`.
Numbers that the script handles as Python floats are modelled as rationals.
-/

/-- JSON values, modelling Python dicts/lists/scalars as handled by the
`json` module. Objects keep field order, as Python dicts do. -/
inductive Json where
  | null : Json
  | bool : Bool → Json
  | num : Int → Json
  | str : String → Json
  | arr : List Json → Json
  | obj : List (String × Json) → Json

/-- Lexical tokens of the JSON text produced by `json.dump`; the snapshot file
contents are modelled as a token stream. -/
inductive Tok where
  | lbrace | rbrace | lbrack | rbrack | colon | comma | tnull
  | tbool : Bool → Tok
  | tnum : Int → Tok
  | tstr : String → Tok
deriving DecidableEq, Repr

mutual
/-- Serialization of a JSON value to its token stream (models `json.dump`). -/
def Json.toTokens : Json → List Tok
  | .null => [.tnull]
  | .bool b => [.tbool b]
  | .num n => [.tnum n]
  | .str s => [.tstr s]
  | .arr [] => [.lbrack, .rbrack]
  | .arr (x :: xs) => .lbrack :: (x.toTokens ++ Json.arrTail xs)
  | .obj [] => [.lbrace, .rbrace]
  | .obj ((k, v) :: fs) => .lbrace :: .tstr k :: .colon :: (v.toTokens ++ Json.objTail fs)

/-- Tokens of the remaining elements of a non-empty array, starting at the
separator before each element and ending with the closing bracket. -/
def Json.arrTail : List Json → List Tok
  | [] => [.rbrack]
  | x :: xs => .comma :: (x.toTokens ++ Json.arrTail xs)

/-- Tokens of the remaining fields of a non-empty object. -/
def Json.objTail : List (String × Json) → List Tok
  | [] => [.rbrace]
  | (k, v) :: fs => .comma :: .tstr k :: .colon :: (v.toTokens ++ Json.objTail fs)
end

mutual
/-- Fuel-indexed JSON token parser (models `json.load`): parse one value. -/
def parseVal : Nat → List Tok → Option (Json × List Tok)
  | 0, _ => none
  | _ + 1, [] => none
  | fuel + 1, t :: rest =>
    match t with
    | .tnull => some (.null, rest)
    | .tbool b => some (.bool b, rest)
    | .tnum n => some (.num n, rest)
    | .tstr s => some (.str s, rest)
    | .lbrack =>
      match rest with
      | .rbrack :: rest2 => some (.arr [], rest2)
      | _ => do
        let (x, rest2) ← parseVal fuel rest
        let (xs, rest3) ← parseArrTail fuel rest2
        some (.arr (x :: xs), rest3)
    | .lbrace =>
      match rest with
      | .rbrace :: rest2 => some (.obj [], rest2)
      | _ => do
        let (kv, rest2) ← parseField fuel rest
        let (fs, rest3) ← parseObjTail fuel rest2
        some (.obj (kv :: fs), rest3)
    | _ => none

/-- Parse the remaining elements of an array (after the first element). -/
def parseArrTail : Nat → List Tok → Option (List Json × List Tok)
  | 0, _ => none
  | _ + 1, .rbrack :: rest => some ([], rest)
  | fuel + 1, .comma :: rest => do
    let (x, rest2) ← parseVal fuel rest
    let (xs, rest3) ← parseArrTail fuel rest2
    some (x :: xs, rest3)
  | _ + 1, _ => none

/-- Parse one `"key": value` field of an object. -/
def parseField : Nat → List Tok → Option ((String × Json) × List Tok)
  | fuel + 1, .tstr k :: .colon :: rest => do
    let (v, rest2) ← parseVal fuel rest
    some ((k, v), rest2)
  | _, _ => none

/-- Parse the remaining fields of an object (after the first field). -/
def parseObjTail : Nat → List Tok → Option (List (String × Json) × List Tok)
  | 0, _ => none
  | _ + 1, .rbrace :: rest => some ([], rest)
  | fuel + 1, .comma :: rest => do
    let (kv, rest2) ← parseField fuel rest
    let (fs, rest3) ← parseObjTail fuel rest2
    some (kv :: fs, rest3)
  | _ + 1, _ => none
end

/-- Parse a complete token stream as a single JSON value consuming all input. -/
def Json.parse (ts : List Tok) : Option Json :=
  match parseVal ts.length ts with
  | some (j, []) => some j
  | _ => none


/-- Fixed snapshot file name (source line 20: `DATA_FILE = "observations.json"`). -/
def DATA_FILE : String := "observations.json"

/-- Externally visible operations of the script: hardware-adapter calls, buffer
appends (performed under `data_lock`), snapshot-file activity, coordinate
conversions, thread starts, setting the termination flag, sleeps and prints.
This is the complete alphabet of effects the script performs; in particular
there is no operation that clears the termination flag, matching the source,
where `terminate_flag.clear()` is never called. -/
inductive Event where
  | point : Rat → Rat → Event
  | readData : Option Json → Event
  | captureData : Int → Int → Event
  | sdrConstruct : Event
  | append : Json → Event
  | writeAttempt : Event
  | fileWrite : List Tok → Event
  | getAltAz : Rat → Rat → Rat → Rat → Rat → Rat → Event
  | threadStart : String → Event
  | setFlag : Event
  | sleep : Nat → Event
  | print : String → Event

/-- Hardware-adapter calls: `interf.point`, `snap.read_data`, `sdr.capture_data`
and the `SDR()` handle construction. -/
def Event.isHardware : Event → Bool
  | .point _ _ => true
  | .readData _ => true
  | .captureData _ _ => true
  | .sdrConstruct => true
  | _ => false

/-- Hardware read/capture calls only (`snap.read_data`, `sdr.capture_data`). -/
def Event.isReadOrCapture : Event → Bool
  | .readData _ => true
  | .captureData _ _ => true
  | _ => false

/-- Buffer appends (`collected_data.append(...)`). -/
def Event.isAppend : Event → Bool
  | .append _ => true
  | _ => false

/-- Attempts to open/write the snapshot file. -/
def Event.isWriteAttempt : Event → Bool
  | .writeAttempt => true
  | _ => false

/-- Completed snapshot-file rewrites. -/
def Event.isFileWrite : Event → Bool
  | .fileWrite _ => true
  | _ => false

/-- Thread starts (`t.start()`). -/
def Event.isThreadStart : Event → Bool
  | .threadStart _ => true
  | _ => false

/-- Sets of the termination flag (`terminate_flag.set()`). -/
def Event.isSetFlag : Event → Bool
  | .setFlag => true
  | _ => false

/-- SDR handle constructions (`sdr = SDR()`). -/
def Event.isSdrConstruct : Event → Bool
  | .sdrConstruct => true
  | _ => false

/-- Count of the events satisfying a predicate in a trace. -/
def countP (p : Event → Bool) (evs : List Event) : Nat := (evs.filter p).length

/-- State of `terminate_flag` after a sequence of events: `terminate_flag.set()`
makes it true and no event of the program makes it false again. -/
def flagAfter (init : Bool) (evs : List Event) : Bool :=
  evs.foldl (fun b e => match e with | .setFlag => true | _ => b) init

/-- Key membership in a Python dict modelled as an association list
(`"acc_cnt" in data`). -/
def hasKey (d : List (String × Json)) (k : String) : Bool :=
  (d.lookup k).isSome

/-- Record appended by the spectrometer loop (source line 47):
`{"time": ugradio.timing.utc(), "spectra": data}`. -/
def specRecord (now : Json) (data : List (String × Json)) : Json :=
  .obj [("time", now), ("spectra", .obj data)]

/-- Record appended by the SDR loop (source line 61):
`{"time": ugradio.timing.utc(), "sdr": sdr_data}`. -/
def sdrRecord (now payload : Json) : Json :=
  .obj [("time", now), ("sdr", payload)]

/-- Well-formed observation record: an object carrying a `time` field and
exactly one of the payload keys `spectra` / `sdr`. -/
def isObsRecord (r : Json) : Bool :=
  match r with
  | .obj fields => hasKey fields "time" && (hasKey fields "spectra" != hasKey fields "sdr")
  | _ => false

/-- Per-iteration environment of the pointing loop: the value of
`terminate_flag.is_set()` at the loop check and the outcome of the
`interf.point` adapter call. -/
structure PointStep where
  flagSet : Bool
  pointResult : Except String Unit

/-- Pointing loop (source lines 26-34, `point_telescope`): while the
termination flag is unset, call `interf.point(target_alt, target_az)`, print,
sleep 5 seconds; any adapter exception is caught, logged, and the function
returns. -/
def point_telescope (target_alt target_az : Rat) : List PointStep → List Event
  | [] => []
  | s :: rest =>
    if s.flagSet then []
    else
      match s.pointResult with
      | .error e => [.point target_alt target_az, .print ("Telescope error: " ++ e)]
      | .ok _ =>
          .point target_alt target_az ::
          .print "Telescope pointed" :: .sleep 5 ::
          point_telescope target_alt target_az rest

/-- Per-iteration environment of the spectrometer loop: the elapsed time
`time.time() - start_time` and flag value at the loop check, the response of
`snap.read_data(prev_cnt)` (a dict, or a raised exception), and the value of
`ugradio.timing.utc()` at the append. -/
structure SpectStep where
  elapsed : Rat
  flagSet : Bool
  response : Except String (List (String × Json))
  now : Json

/-- Body of one live spectrometer iteration after `snap.read_data` returned
`data` (source lines 44-47): if `"acc_cnt" in data`, update `prev_cnt` to
`data["acc_cnt"]` and append `{"time": utc, "spectra": data}` under the lock;
otherwise leave `prev_cnt` and the buffer unchanged. Returns the new
`prev_cnt`, the new buffer and the append events performed. -/
def spect_iteration (prev_cnt : Option Json) (buf : List Json) (now : Json)
    (data : List (String × Json)) : Option Json × List Json × List Event :=
  if hasKey data "acc_cnt" then
    (data.lookup "acc_cnt", buf ++ [specRecord now data], [.append (specRecord now data)])
  else
    (prev_cnt, buf, [])

/-- Spectrometer loop (source lines 37-51, `collect_spectrometer_data`):
while `time.time() - start_time < duration` and the flag is unset, call
`snap.read_data(prev_cnt)`, run the iteration body, sleep 1 second; on loop
exit print the completion message; an adapter exception is caught and logged
and the function returns. The step list supplies the values observed at each
iteration; an exhausted step list means the modelling horizon was reached with
the loop still running. -/
def collect_spectrometer_data (duration : Rat) :
    List SpectStep → Option Json → List Json → List Event × List Json
  | [], _, buf => ([], buf)
  | s :: rest, prev_cnt, buf =>
    if s.elapsed < duration ∧ s.flagSet = false then
      match s.response with
      | .error e => ([.readData prev_cnt, .print ("Spectrometer error: " ++ e)], buf)
      | .ok data =>
          let it := spect_iteration prev_cnt buf s.now data
          let tl := collect_spectrometer_data duration rest it.1 it.2.1
          (.readData prev_cnt :: it.2.2 ++ .sleep 1 :: tl.1, tl.2)
    else ([.print "Spectrometer finished collecting."], buf)

/-- Per-iteration environment of the SDR loop: elapsed time and flag at the
loop check, the payload returned by `sdr.capture_data` (or a raised
exception), and the value of `ugradio.timing.utc()` at the append. -/
structure SdrStep where
  elapsed : Rat
  flagSet : Bool
  captureResult : Except String Json
  now : Json

/-- Polling loop of `collect_sdr_data` (source lines 58-63): while
`time.time() - start_time < duration` and the flag is unset, call
`sdr.capture_data(nsamples=nsamples, nblocks=nblocks)`, append
`{"time": utc, "sdr": sdr_data}` under the lock, sleep 1 second; on loop exit
print the completion message; an exception is caught and logged and the
function returns. -/
def sdr_loop (nsamples nblocks : Int) (duration : Rat) :
    List SdrStep → List Json → List Event × List Json
  | [], buf => ([], buf)
  | s :: rest, buf =>
    if s.elapsed < duration ∧ s.flagSet = false then
      match s.captureResult with
      | .error e => ([.captureData nsamples nblocks, .print ("SDR error: " ++ e)], buf)
      | .ok payload =>
          let tl := sdr_loop nsamples nblocks duration rest (buf ++ [sdrRecord s.now payload])
          (.captureData nsamples nblocks :: .append (sdrRecord s.now payload) ::
            .sleep 1 :: tl.1, tl.2)
    else ([.print "SDR finished collecting."], buf)

/-- SDR loop (source lines 53-65, `collect_sdr_data`): construct one SDR
handle with `SDR()` (whose outcome is `constructResult`), then run the polling
loop; an exception from the construction is caught and logged. -/
def collect_sdr_data (nsamples nblocks : Int) (duration : Rat)
    (constructResult : Except String Unit) (steps : List SdrStep) (buf : List Json) :
    List Event × List Json :=
  match constructResult with
  | .error e => ([.sdrConstruct, .print ("SDR error: " ++ e)], buf)
  | .ok _ =>
      let tl := sdr_loop nsamples nblocks duration steps buf
      (.sdrConstruct :: tl.1, tl.2)

/-- Per-iteration environment of the snapshot writer: the flag at the loop
check, the buffer contents observed while holding `data_lock`, and the outcome
of opening and writing `DATA_FILE`. -/
structure SaveStep where
  flagSet : Bool
  bufAtLock : List Json
  writeOk : Except String Unit

/-- Snapshot writer (source lines 68-78, `save_data_periodically`): while the
flag is unset, acquire the lock, open `DATA_FILE` for writing (truncating it)
and dump the entire buffer as a JSON array, print, sleep 10 seconds. The
`try` block wraps the whole loop, so an exception from the open/write is
caught and logged and the function returns. State threaded through is the
snapshot file contents as a token stream; a successful write replaces them
with the serialization of the observed buffer. -/
def save_data_periodically : List SaveStep → List Tok → List Event × List Tok
  | [], file => ([], file)
  | s :: rest, file =>
    if s.flagSet then ([], file)
    else
      match s.writeOk with
      | .error e => ([.writeAttempt, .print ("Error saving data: " ++ e)], file)
      | .ok _ =>
          let written := Json.toTokens (.arr s.bufAtLock)
          let tl := save_data_periodically rest written
          (.writeAttempt :: .fileWrite written :: .print "Data saved successfully." ::
            .sleep 10 :: tl.1, tl.2)

/-- Per-iteration environment of the main wait loop (source lines 122-133):
elapsed time at the check and whether a `KeyboardInterrupt` arrives during
this iteration's sleep. -/
structure MainStep where
  elapsed : Rat
  interrupt : Bool

/-- Main wait loop (source lines 122-133): sleep in 1-second steps until
`duration` elapses or an interrupt arrives, then set the termination flag;
every exit path sets the flag. -/
def main_wait (duration : Rat) : List MainStep → List Event
  | [] => []
  | s :: rest =>
    if s.elapsed < duration then
      if s.interrupt then [.sleep 1, .print "Terminating data collection...", .setFlag]
      else .sleep 1 :: main_wait duration rest
    else [.print "Time duration reached, waiting for last block to complete...", .setFlag]

/-- Python `str.strip()`: remove leading and trailing whitespace. -/
def pyStrip (cs : List Char) : List Char :=
  ((cs.dropWhile Char.isWhitespace).reverse.dropWhile Char.isWhitespace).reverse

/-- Python `str.lower()` on the ASCII range. -/
def pyLower (cs : List Char) : List Char := cs.map Char.toLower

/-- Value of a digit string read in base 10 (0 for the empty string). -/
def valDigits (cs : List Char) : Nat :=
  cs.foldl (fun a c => 10 * a + (c.toNat - 48)) 0

/-- Optional leading sign: returns whether the number is negative and the
remaining characters. -/
def parseSign : List Char → Bool × List Char
  | '-' :: cs => (true, cs)
  | '+' :: cs => (false, cs)
  | cs => (false, cs)

/-- Python `int(input(...))` on the core integer-literal grammar: surrounding
whitespace stripped, optional sign, one or more decimal digits; anything else
raises `ValueError`, modelled as `none`. -/
def parseInt? (s : String) : Option Int :=
  let cs := pyStrip s.toList
  let p := parseSign cs
  if p.2 ≠ [] ∧ p.2.all Char.isDigit then
    some (if p.1 then -(valDigits p.2 : Int) else (valDigits p.2 : Int))
  else none

/-- Python `float(input(...))` on the core decimal-literal grammar: surrounding
whitespace stripped, optional sign, digits with an optional single decimal
point and at least one digit overall; anything else raises `ValueError`,
modelled as `none`. -/
def parseFloat? (s : String) : Option Rat :=
  let cs := pyStrip s.toList
  let p := parseSign cs
  let mag : Option Rat :=
    match p.2.splitOn '.' with
    | [ip] =>
        if ip ≠ [] ∧ ip.all Char.isDigit then some ((valDigits ip : Rat)) else none
    | [ip, fp] =>
        if ip ++ fp ≠ [] ∧ ip.all Char.isDigit ∧ fp.all Char.isDigit then
          some ((valDigits ip : Rat) + (valDigits fp : Rat) / ((10 : Rat) ^ fp.length))
        else none
    | _ => none
  mag.map fun m => if p.1 then -m else m

/-- Python `input(...).strip().lower() == "yes"`. -/
def strYes (s : String) : Bool := pyLower (pyStrip s.toList) == "yes".toList

/-- Hard-coded observer latitude (source lines 88 and 96: `lat = 37.8716`). -/
def berkeley_lat : Rat := 378716 / 10000

/-- Hard-coded observer longitude (source lines 88 and 96: `lon = -122.2727`). -/
def berkeley_lon : Rat := -1222727 / 10000

/-- Hard-coded observer altitude (source lines 88 and 96: `alt = 0`). -/
def berkeley_alt : Rat := 0

/-- External time/ephemeris collaborators consumed by the setup code:
`ugradio.timing.julian_date()`, `sunpos`, `time.time()` at the RA/Dec branch,
and the `get_altaz` coordinate conversion. -/
structure SessionEnv where
  jd : Rat
  sunpos : Rat → Rat × Rat
  unix_time : Rat
  get_altaz : Rat → Rat → Rat → Rat → Rat → Rat → Rat × Rat

/-- Raw strings typed by the user at each of the interactive prompts
(source lines 82-105). Prompts not reached in a given branch are ignored. -/
structure Inputs where
  observe_sun : String
  process_coords : String
  ra : String
  dec : String
  alt : String
  az : String
  nsamples : String
  nblocks : String
  duration : String

/-- Outcome of the setup block: either the session aborts at the
`except`/`exit()` (source lines 107-109) or it proceeds to start the threads
with the computed target and acquisition parameters. -/
inductive SetupOutcome where
  | aborted : String → SetupOutcome
  | ready : Rat → Rat → Int → Int → Rat → SetupOutcome

/-- The three acquisition-parameter prompts common to all branches
(source lines 103-105): samples per block, number of blocks, duration. The
first failing conversion raises, aborting the session. -/
def acquisitionPrompts (target_alt target_az : Rat) (inp : Inputs) : SetupOutcome :=
  match parseInt? inp.nsamples with
  | none => .aborted ("Input error: " ++ ("invalid literal for int: " ++ inp.nsamples))
  | some ns =>
    match parseInt? inp.nblocks with
    | none => .aborted ("Input error: " ++ ("invalid literal for int: " ++ inp.nblocks))
    | some nb =>
      match parseFloat? inp.duration with
      | none => .aborted ("Input error: " ++ ("could not convert string to float: " ++ inp.duration))
      | some du => .ready target_alt target_az ns nb du

/-- Setup block (source lines 81-109): choose the observation mode, compute
the target altitude/azimuth (calling `get_altaz` with the hard-coded Berkeley
observer location in the Sun and RA/Dec branches), then read the acquisition
parameters. Any conversion error aborts. Returns the outcome together with
the events performed during setup. -/
def session_setup (env : SessionEnv) (inp : Inputs) : SetupOutcome × List Event :=
  let observe_sun := strYes inp.observe_sun
  let process_coords := !observe_sun && strYes inp.process_coords
  if observe_sun then
    let rd := env.sunpos env.jd
    let ta := env.get_altaz rd.1 rd.2 env.jd berkeley_lat berkeley_lon berkeley_alt
    (acquisitionPrompts ta.1 ta.2 inp,
     [.getAltAz rd.1 rd.2 env.jd berkeley_lat berkeley_lon berkeley_alt,
      .print "Sun Position"])
  else if process_coords then
    match parseFloat? inp.ra with
    | none => (.aborted ("Input error: " ++ ("could not convert string to float: " ++ inp.ra)), [])
    | some ra =>
      match parseFloat? inp.dec with
      | none => (.aborted ("Input error: " ++ ("could not convert string to float: " ++ inp.dec)), [])
      | some dec =>
        let jd := env.unix_time / 86400 + 4881175 / 2
        let ta := env.get_altaz ra dec jd berkeley_lat berkeley_lon berkeley_alt
        (acquisitionPrompts ta.1 ta.2 inp,
         [.getAltAz ra dec jd berkeley_lat berkeley_lon berkeley_alt])
  else
    match parseFloat? inp.alt with
    | none => (.aborted ("Input error: " ++ ("could not convert string to float: " ++ inp.alt)), [])
    | some ta =>
      match parseFloat? inp.az with
      | none => (.aborted ("Input error: " ++ ("could not convert string to float: " ++ inp.az)), [])
      | some tz => (acquisitionPrompts ta tz inp, [])

/-- Whether some numeric prompt actually reached in the taken branch receives
input that fails its conversion. -/
def somePromptMalformed (inp : Inputs) : Bool :=
  let observe_sun := strYes inp.observe_sun
  let process_coords := !observe_sun && strYes inp.process_coords
  let acq := (parseInt? inp.nsamples).isNone || (parseInt? inp.nblocks).isNone ||
    (parseFloat? inp.duration).isNone
  if observe_sun then acq
  else if process_coords then
    (parseFloat? inp.ra).isNone || (parseFloat? inp.dec).isNone || acq
  else
    (parseFloat? inp.alt).isNone || (parseFloat? inp.az).isNone || acq

/-- Top-level control flow of the script after the setup block (source lines
107-135): on an input error print it and exit before any thread is started
and before any file activity; otherwise start the four worker threads and run
the main wait loop. Events of the started worker threads themselves are not
part of this trace (they run concurrently); thread creation is. -/
def session (env : SessionEnv) (inp : Inputs) (mainSteps : List MainStep) : List Event :=
  match session_setup env inp with
  | (.aborted msg, evs) => evs ++ [.print msg]
  | (.ready _ _ _ _ du, evs) =>
      evs ++ [.threadStart "telescope_thread", .threadStart "spectrometer_thread",
              .threadStart "sdr_thread", .threadStart "save_thread"]
        ++ main_wait du mainSteps ++ [.print "Data collection completed."]

/-- Every serialized value is nonempty and starts with a token that is not a
closer or separator. -/
theorem toTokens_head (j : Json) :
    ∃ t ts, j.toTokens = t :: ts ∧ t ≠ .rbrack ∧ t ≠ .rbrace ∧ t ≠ .comma ∧ t ≠ .colon := by
  cases j with
  | null => exact ⟨_, _, rfl, by simp, by simp, by simp, by simp⟩
  | bool b => exact ⟨_, _, rfl, by simp, by simp, by simp, by simp⟩
  | num n => exact ⟨_, _, rfl, by simp, by simp, by simp, by simp⟩
  | str s => exact ⟨_, _, rfl, by simp, by simp, by simp, by simp⟩
  | arr xs =>
    cases xs with
    | nil => exact ⟨_, _, rfl, by simp, by simp, by simp, by simp⟩
    | cons x xs => exact ⟨_, _, rfl, by simp, by simp, by simp, by simp⟩
  | obj fs =>
    cases fs with
    | nil => exact ⟨_, _, rfl, by simp, by simp, by simp, by simp⟩
    | cons f fs =>
      obtain ⟨k, v⟩ := f
      exact ⟨_, _, rfl, by simp, by simp, by simp, by simp⟩

theorem arrTail_len_pos (xs : List Json) : 1 ≤ (Json.arrTail xs).length := by
  cases xs <;> simp [Json.arrTail]

theorem objTail_len_pos (fs : List (String × Json)) : 1 ≤ (Json.objTail fs).length := by
  cases fs with
  | nil => simp [Json.objTail]
  | cons f fs => obtain ⟨k, v⟩ := f; simp [Json.objTail]

theorem toTokens_len_pos (j : Json) : 1 ≤ (Json.toTokens j).length := by
  obtain ⟨t, ts, h, -⟩ := toTokens_head j
  simp [h]

theorem parseVal_lbrack_cons (fuel : Nat) (t : Tok) (ts : List Tok) (hne : t ≠ Tok.rbrack) :
    parseVal (fuel + 1) (.lbrack :: t :: ts) =
      (do
        let (x, rest2) ← parseVal fuel (t :: ts)
        let (xs, rest3) ← parseArrTail fuel rest2
        some (.arr (x :: xs), rest3)) := by
  cases t <;> first | rfl | exact absurd rfl hne

theorem parseVal_lbrace_cons (fuel : Nat) (t : Tok) (ts : List Tok) (hne : t ≠ Tok.rbrace) :
    parseVal (fuel + 1) (.lbrace :: t :: ts) =
      (do
        let (kv, rest2) ← parseField fuel (t :: ts)
        let (fs, rest3) ← parseObjTail fuel rest2
        some (.obj (kv :: fs), rest3)) := by
  cases t <;> first | rfl | exact absurd rfl hne

/-- Core inversion lemma: with enough fuel, parsing a serialized value followed
by any continuation succeeds and returns exactly that value. -/
theorem parse_round (fuel : Nat) :
    (∀ j rest, (Json.toTokens j).length ≤ fuel →
       parseVal fuel (Json.toTokens j ++ rest) = some (j, rest)) ∧
    (∀ xs rest, (Json.arrTail xs).length ≤ fuel →
       parseArrTail fuel (Json.arrTail xs ++ rest) = some (xs, rest)) ∧
    (∀ fs rest, (Json.objTail fs).length ≤ fuel →
       parseObjTail fuel (Json.objTail fs ++ rest) = some (fs, rest)) ∧
    (∀ k v rest, (Json.toTokens v).length + 2 ≤ fuel →
       parseField fuel (Tok.tstr k :: Tok.colon :: (Json.toTokens v ++ rest)) =
         some ((k, v), rest)) := by
  induction fuel with
  | zero =>
    refine ⟨?_, ?_, ?_, ?_⟩
    · intro j rest h; exact absurd h (by have := toTokens_len_pos j; omega)
    · intro xs rest h; exact absurd h (by have := arrTail_len_pos xs; omega)
    · intro fs rest h; exact absurd h (by have := objTail_len_pos fs; omega)
    · intro k v rest h; exact absurd h (by omega)
  | succ f ih =>
    obtain ⟨ihV, ihA, ihO, ihF⟩ := ih
    refine ⟨?_, ?_, ?_, ?_⟩
    · intro j rest h
      cases j with
      | null => rfl
      | bool b => rfl
      | num n => rfl
      | str s => rfl
      | arr xs =>
        cases xs with
        | nil => rfl
        | cons x xs =>
          have hlen : (Json.toTokens (Json.arr (x :: xs))).length
              = 1 + ((Json.toTokens x).length + (Json.arrTail xs).length) := by
            simp [Json.toTokens]; omega
          have hx1 := toTokens_len_pos x
          have ha1 := arrTail_len_pos xs
          obtain ⟨t, ts, hx, hne, -, -, -⟩ := toTokens_head x
          have heq : Json.toTokens (Json.arr (x :: xs)) ++ rest
              = Tok.lbrack :: t :: (ts ++ (Json.arrTail xs ++ rest)) := by
            simp [Json.toTokens, hx]
          rw [heq, parseVal_lbrack_cons f t _ hne]
          have hx' : t :: (ts ++ (Json.arrTail xs ++ rest))
              = Json.toTokens x ++ (Json.arrTail xs ++ rest) := by simp [hx]
          rw [hx', ihV x _ (by omega)]
          simp [ihA xs rest (by omega)]
      | obj fs =>
        cases fs with
        | nil => rfl
        | cons kv fs =>
          obtain ⟨k, v⟩ := kv
          have hv1 := toTokens_len_pos v
          have ho1 := objTail_len_pos fs
          have hlen : (Json.toTokens (Json.obj ((k, v) :: fs))).length
              = 3 + ((Json.toTokens v).length + (Json.objTail fs).length) := by
            simp [Json.toTokens]; omega
          have heq : Json.toTokens (Json.obj ((k, v) :: fs)) ++ rest
              = Tok.lbrace :: Tok.tstr k :: (Tok.colon :: (Json.toTokens v
                  ++ (Json.objTail fs ++ rest))) := by
            simp [Json.toTokens]
          rw [heq, parseVal_lbrace_cons f (Tok.tstr k) _ (by simp)]
          rw [ihF k v _ (by omega)]
          simp [ihO fs rest (by omega)]
    · intro xs rest h
      cases xs with
      | nil => rfl
      | cons x xs =>
        have hx1 := toTokens_len_pos x
        have ha1 := arrTail_len_pos xs
        have hlen : (Json.arrTail (x :: xs)).length
            = 1 + ((Json.toTokens x).length + (Json.arrTail xs).length) := by
          simp [Json.arrTail]; omega
        have heq : Json.arrTail (x :: xs) ++ rest
            = Tok.comma :: (Json.toTokens x ++ (Json.arrTail xs ++ rest)) := by
          simp [Json.arrTail]
        rw [heq]
        show (do
          let (x, rest2) ← parseVal f (Json.toTokens x ++ (Json.arrTail xs ++ rest))
          let (xs, rest3) ← parseArrTail f rest2
          some (x :: xs, rest3)) = _
        rw [ihV x _ (by omega)]
        simp [ihA xs rest (by omega)]
    · intro fs rest h
      cases fs with
      | nil => rfl
      | cons kv fs =>
        obtain ⟨k, v⟩ := kv
        have hv1 := toTokens_len_pos v
        have ho1 := objTail_len_pos fs
        have hlen : (Json.objTail ((k, v) :: fs)).length
            = 3 + ((Json.toTokens v).length + (Json.objTail fs).length) := by
          simp [Json.objTail]; omega
        have heq : Json.objTail ((k, v) :: fs) ++ rest
            = Tok.comma :: Tok.tstr k :: Tok.colon ::
                (Json.toTokens v ++ (Json.objTail fs ++ rest)) := by
          simp [Json.objTail]
        rw [heq]
        show (do
          let (kv, rest2) ← parseField f (Tok.tstr k :: Tok.colon ::
              (Json.toTokens v ++ (Json.objTail fs ++ rest)))
          let (fs, rest3) ← parseObjTail f rest2
          some (kv :: fs, rest3)) = _
        rw [ihF k v _ (by omega)]
        simp [ihO fs rest (by omega)]
    · intro k v rest h
      show (do
        let (v', rest2) ← parseVal f (Json.toTokens v ++ rest)
        some ((k, v'), rest2)) = _
      rw [ihV v rest (by omega)]; rfl

/-- Serialization followed by parsing is the identity: the token stream
written for a JSON value parses back to exactly that value. -/
theorem Json.parse_toTokens (j : Json) : Json.parse j.toTokens = some j := by
  have h := (parse_round j.toTokens.length).1 j [] (le_refl _)
  rw [List.append_nil] at h
  unfold Json.parse
  rw [h]

/-- Once the flag is true it stays true: no event of the program clears it. -/
theorem flagAfter_true_of_true (evs : List Event) : flagAfter true evs = true := by
  induction evs with
  | nil => rfl
  | cons e evs ih => cases e <;> exact ih

/-- A pointing-loop step at which the flag is observed set or the adapter call
raises ends the loop: steps scheduled after it are irrelevant. -/
theorem point_stop (ta tz : Rat) (s : PointStep)
    (hstop : s.flagSet = true ∨ ∃ e, s.pointResult = .error e) :
    ∀ pre rest, point_telescope ta tz (pre ++ s :: rest) = point_telescope ta tz (pre ++ [s]) := by
  intro pre
  induction pre with
  | nil =>
    intro rest
    simp only [List.nil_append, point_telescope]
    cases hf : s.flagSet
    · obtain he | ⟨e, he⟩ := hstop
      · exact absurd he (by simp [hf])
      · simp [he]
    · simp
  | cons p pre ih =>
    intro rest
    simp only [List.cons_append, point_telescope]
    cases hp : p.flagSet
    · cases p.pointResult with
      | error e => rfl
      | ok u => simp [ih rest]
    · rfl

/-- A spectrometer-loop step at which the flag is observed set, the duration
has elapsed, or the adapter raises, ends the loop: steps scheduled after it
are irrelevant. -/
theorem spect_stop (duration : Rat) (s : SpectStep)
    (hstop : s.flagSet = true ∨ ¬ s.elapsed < duration ∨ ∃ e, s.response = .error e) :
    ∀ pre rest prev buf,
      collect_spectrometer_data duration (pre ++ s :: rest) prev buf
        = collect_spectrometer_data duration (pre ++ [s]) prev buf := by
  intro pre
  induction pre with
  | nil =>
    intro rest prev buf
    simp only [List.nil_append, collect_spectrometer_data]
    by_cases hc : s.elapsed < duration ∧ s.flagSet = false
    · rw [if_pos hc, if_pos hc]
      obtain hf | hd | ⟨e, he⟩ := hstop
      · exact absurd hf (by simp [hc.2])
      · exact absurd hc.1 hd
      · simp [he]
    · rw [if_neg hc, if_neg hc]
  | cons p pre ih =>
    intro rest prev buf
    simp only [List.cons_append, collect_spectrometer_data]
    by_cases hc : p.elapsed < duration ∧ p.flagSet = false
    · rw [if_pos hc, if_pos hc]
      cases p.response with
      | error e => rfl
      | ok data => simp [ih rest]
    · rw [if_neg hc, if_neg hc]

/-- An SDR-loop step at which the flag is observed set, the duration has
elapsed, or the capture raises, ends the loop: steps scheduled after it are
irrelevant. -/
theorem sdr_stop (ns nb : Int) (duration : Rat) (s : SdrStep)
    (hstop : s.flagSet = true ∨ ¬ s.elapsed < duration ∨ ∃ e, s.captureResult = .error e) :
    ∀ pre rest buf,
      sdr_loop ns nb duration (pre ++ s :: rest) buf
        = sdr_loop ns nb duration (pre ++ [s]) buf := by
  intro pre
  induction pre with
  | nil =>
    intro rest buf
    simp only [List.nil_append, sdr_loop]
    by_cases hc : s.elapsed < duration ∧ s.flagSet = false
    · rw [if_pos hc, if_pos hc]
      obtain hf | hd | ⟨e, he⟩ := hstop
      · exact absurd hf (by simp [hc.2])
      · exact absurd hc.1 hd
      · simp [he]
    · rw [if_neg hc, if_neg hc]
  | cons p pre ih =>
    intro rest buf
    simp only [List.cons_append, sdr_loop]
    by_cases hc : p.elapsed < duration ∧ p.flagSet = false
    · rw [if_pos hc, if_pos hc]
      cases p.captureResult with
      | error e => rfl
      | ok payload => simp [ih rest]
    · rw [if_neg hc, if_neg hc]

/-- A snapshot-writer step at which the flag is observed set or the write
raises ends the loop: steps scheduled after it are irrelevant. -/
theorem save_stop (s : SaveStep)
    (hstop : s.flagSet = true ∨ ∃ e, s.writeOk = .error e) :
    ∀ pre rest file,
      save_data_periodically (pre ++ s :: rest) file
        = save_data_periodically (pre ++ [s]) file := by
  intro pre
  induction pre with
  | nil =>
    intro rest file
    simp only [List.nil_append, save_data_periodically]
    cases hf : s.flagSet
    · obtain he | ⟨e, he⟩ := hstop
      · exact absurd he (by simp [hf])
      · simp [he]
    · simp
  | cons p pre ih =>
    intro rest file
    simp only [List.cons_append, save_data_periodically]
    cases hp : p.flagSet
    · cases p.writeOk with
      | error e => rfl
      | ok u => simp [ih rest]
    · rfl

/-- C1 counterexample: in `save_data_periodically` the `try` block wraps the
whole `while` loop, so when the write at the first iteration raises, the
writer loop exits after logging; with a second iteration scheduled (flag still
unset, write would succeed) no second snapshot attempt occurs, refuting the
claim that the writer continues to attempt subsequent snapshots. -/
theorem C1_counterexample :
    ¬ 2 ≤ countP Event.isWriteAttempt
        (save_data_periodically
          [⟨false, [], .error "disk full"⟩, ⟨false, [], .ok ()⟩] []).1 := by
  decide

/-- C1 (amended): if a write of the snapshot file raises an error, the
snapshot writer catches and logs it, but then exits the writer loop: it makes
no further snapshot attempts, whatever iterations follow the failing one. -/
theorem C1_writer_stops_after_write_error (s : SaveStep) (rest : List SaveStep)
    (file : List Tok) (e : String) (hf : s.flagSet = false) (he : s.writeOk = .error e) :
    save_data_periodically (s :: rest) file
      = ([.writeAttempt, .print ("Error saving data: " ++ e)], file) ∧
    ∀ pre, save_data_periodically (pre ++ s :: rest) file
      = save_data_periodically (pre ++ [s]) file := by
  constructor
  · simp [save_data_periodically, hf, he]
  · intro pre
    exact save_stop s (Or.inr ⟨e, he⟩) pre rest file

theorem C1_witness :
    save_data_periodically [⟨false, [], .error "disk full"⟩, ⟨false, [], .ok ()⟩] []
      = ([.writeAttempt, .print "Error saving data: disk full"], []) :=
  (C1_writer_stops_after_write_error ⟨false, [], .error "disk full"⟩
    [⟨false, [], .ok ()⟩] [] "disk full" rfl rfl).1

/-- C2: the termination signal, once set, is never unset (no operation of the
program clears it), and for every loop — pointing, spectrometer, SDR, snapshot
writer — once the loop observes the signal set at its per-iteration check it
performs no further hardware call and no further buffer append: the schedule
beyond the flag-set observation is irrelevant to the loop's result, and from
the observation on the loop emits no hardware-call or append event and leaves
the buffer unchanged. -/
theorem C2_terminate_once_set_stops_all_loops :
    (∀ init evs₁ evs₂, flagAfter init evs₁ = true → flagAfter init (evs₁ ++ evs₂) = true) ∧
    (∀ ta tz (s : PointStep) rest, s.flagSet = true →
       (∀ pre, point_telescope ta tz (pre ++ s :: rest) = point_telescope ta tz (pre ++ [s])) ∧
       countP (fun e => e.isHardware || e.isAppend) (point_telescope ta tz (s :: rest)) = 0) ∧
    (∀ duration (s : SpectStep) rest prev buf, s.flagSet = true →
       (∀ pre prev' buf', collect_spectrometer_data duration (pre ++ s :: rest) prev' buf'
          = collect_spectrometer_data duration (pre ++ [s]) prev' buf') ∧
       countP (fun e => e.isHardware || e.isAppend)
         (collect_spectrometer_data duration (s :: rest) prev buf).1 = 0 ∧
       (collect_spectrometer_data duration (s :: rest) prev buf).2 = buf) ∧
    (∀ ns nb duration (s : SdrStep) rest buf, s.flagSet = true →
       (∀ pre buf', sdr_loop ns nb duration (pre ++ s :: rest) buf'
          = sdr_loop ns nb duration (pre ++ [s]) buf') ∧
       countP (fun e => e.isHardware || e.isAppend)
         (sdr_loop ns nb duration (s :: rest) buf).1 = 0 ∧
       (sdr_loop ns nb duration (s :: rest) buf).2 = buf) ∧
    (∀ (s : SaveStep) rest file, s.flagSet = true →
       (∀ pre file', save_data_periodically (pre ++ s :: rest) file'
          = save_data_periodically (pre ++ [s]) file') ∧
       save_data_periodically (s :: rest) file = ([], file)) := by
  refine ⟨?_, ?_, ?_, ?_, ?_⟩
  · intro init evs₁ evs₂ h
    unfold flagAfter at h ⊢
    rw [List.foldl_append, h]
    exact flagAfter_true_of_true evs₂
  · intro ta tz s rest hs
    refine ⟨fun pre => point_stop ta tz s (Or.inl hs) pre rest, ?_⟩
    simp [point_telescope, hs, countP]
  · intro duration s rest prev buf hs
    refine ⟨fun pre prev' buf' => spect_stop duration s (Or.inl hs) pre rest prev' buf', ?_, ?_⟩
    · simp [collect_spectrometer_data, hs, countP, Event.isHardware, Event.isAppend]
    · simp [collect_spectrometer_data, hs]
  · intro ns nb duration s rest buf hs
    refine ⟨fun pre buf' => sdr_stop ns nb duration s (Or.inl hs) pre rest buf', ?_, ?_⟩
    · simp [sdr_loop, hs, countP, Event.isHardware, Event.isAppend]
    · simp [sdr_loop, hs]
  · intro s rest file hs
    refine ⟨fun pre file' => save_stop s (Or.inl hs) pre rest file', ?_⟩
    simp [save_data_periodically, hs]

theorem C2_witness :
    flagAfter false ([Event.setFlag] ++ [Event.sleep 1]) = true ∧
    save_data_periodically [⟨true, [], .ok ()⟩] [] = ([], []) ∧
    (collect_spectrometer_data 5 [⟨0, true, .ok [], Json.null⟩] none []).2 = [] ∧
    countP (fun e => e.isHardware || e.isAppend)
      (collect_spectrometer_data 5 [⟨0, true, .ok [], Json.null⟩] none []).1 = 0 := by
  refine ⟨?_, ?_, ?_⟩
  · exact C2_terminate_once_set_stops_all_loops.1 false [Event.setFlag] [Event.sleep 1] rfl
  · exact (C2_terminate_once_set_stops_all_loops.2.2.2.2 ⟨true, [], .ok ()⟩ [] [] rfl).2
  · have h := C2_terminate_once_set_stops_all_loops.2.2.1 5
        ⟨0, true, .ok [], Json.null⟩ [] none [] rfl
    exact ⟨h.2.2, h.2.1⟩

/-- Records built by the spectrometer loop are well-formed observation
records: they carry a `time` field and the `spectra` payload key but not
`sdr`. -/
theorem isObsRecord_specRecord (now : Json) (data : List (String × Json)) :
    isObsRecord (specRecord now data) = true := rfl

/-- Records built by the SDR loop are well-formed observation records: they
carry a `time` field and the `sdr` payload key but not `spectra`. -/
theorem isObsRecord_sdrRecord (now payload : Json) :
    isObsRecord (sdrRecord now payload) = true := rfl

/-- C3: the spectrometer loop appends to the buffer exactly when the adapter
response contains the `acc_cnt` field; a response lacking it leaves the
buffer unchanged for that iteration; and the counter value is never compared
against `prev_cnt` — the buffer and events produced are independent of
`prev_cnt`, so no contiguity validation occurs. The last conjunct ties the
iteration body to the running loop. -/
theorem C3_spectrometer_append_iff_acc_cnt :
    (∀ prev buf now data,
       ((spect_iteration prev buf now data).2.1
          = if hasKey data "acc_cnt" then buf ++ [specRecord now data] else buf) ∧
       ((spect_iteration prev buf now data).2.2
          = if hasKey data "acc_cnt" then [.append (specRecord now data)] else []) ∧
       (hasKey data "acc_cnt" = false → (spect_iteration prev buf now data).2.1 = buf) ∧
       (∀ prev', (spect_iteration prev buf now data).2 = (spect_iteration prev' buf now data).2)) ∧
    (∀ duration (s : SpectStep) rest prev buf data,
       s.elapsed < duration → s.flagSet = false → s.response = .ok data →
       collect_spectrometer_data duration (s :: rest) prev buf
         = (.readData prev :: (spect_iteration prev buf s.now data).2.2
              ++ .sleep 1 :: (collect_spectrometer_data duration rest
                   (spect_iteration prev buf s.now data).1
                   (spect_iteration prev buf s.now data).2.1).1,
            (collect_spectrometer_data duration rest
              (spect_iteration prev buf s.now data).1
              (spect_iteration prev buf s.now data).2.1).2)) := by
  constructor
  · intro prev buf now data
    refine ⟨?_, ?_, ?_, ?_⟩ <;> unfold spect_iteration <;>
      by_cases h : hasKey data "acc_cnt" <;> simp [h]
  · intro duration s rest prev buf data hd hf hr
    simp [collect_spectrometer_data, hd, hf, hr]

theorem C3_witness :
    collect_spectrometer_data 5 [⟨0, false, .ok [("acc_cnt", Json.num 1)], Json.null⟩] none []
      = ([.readData none, .append (specRecord Json.null [("acc_cnt", Json.num 1)]),
          .sleep 1],
         [specRecord Json.null [("acc_cnt", Json.num 1)]]) := by
  have h := C3_spectrometer_append_iff_acc_cnt.2 5
      ⟨0, false, .ok [("acc_cnt", Json.num 1)], Json.null⟩ [] none []
      [("acc_cnt", Json.num 1)] (by norm_num) rfl rfl
  rw [h]; rfl

/-- Buffer evolution of the spectrometer loop: the buffer only grows by
appends (the initial buffer stays a prefix), its final length equals the
initial length plus the number of append events in the trace, and every
record present at the end was present initially or is a well-formed
observation record. -/
theorem spect_buffer_facts (duration : Rat) :
    ∀ steps prev buf,
      (∃ extra, (collect_spectrometer_data duration steps prev buf).2 = buf ++ extra) ∧
      ((collect_spectrometer_data duration steps prev buf).2.length
        = buf.length + countP Event.isAppend (collect_spectrometer_data duration steps prev buf).1) ∧
      (∀ r, r ∈ (collect_spectrometer_data duration steps prev buf).2 →
         r ∈ buf ∨ isObsRecord r = true) := by
  intro steps
  induction steps with
  | nil =>
    intro prev buf
    refine ⟨⟨[], by simp [collect_spectrometer_data]⟩, ?_, ?_⟩
    · simp [collect_spectrometer_data, countP]
    · intro r hr; exact Or.inl (by simpa [collect_spectrometer_data] using hr)
  | cons s rest ih =>
    intro prev buf
    by_cases hc : s.elapsed < duration ∧ s.flagSet = false
    · cases hresp : s.response with
      | error e =>
        refine ⟨⟨[], by simp [collect_spectrometer_data, hc, hresp]⟩, ?_, ?_⟩
        · simp [collect_spectrometer_data, hc, hresp, countP, Event.isAppend]
        · intro r hr
          exact Or.inl (by simpa [collect_spectrometer_data, hc, hresp] using hr)
      | ok data =>
        by_cases hk : hasKey data "acc_cnt"
        · have hunf : collect_spectrometer_data duration (s :: rest) prev buf
            = (.readData prev :: .append (specRecord s.now data)
                :: .sleep 1 :: (collect_spectrometer_data duration rest
                     (data.lookup "acc_cnt") (buf ++ [specRecord s.now data])).1,
               (collect_spectrometer_data duration rest
                 (data.lookup "acc_cnt") (buf ++ [specRecord s.now data])).2) := by
            simp [collect_spectrometer_data, hc, hresp, spect_iteration, hk]
          obtain ⟨⟨extra, hex⟩, hlen, hmem⟩ :=
            ih (data.lookup "acc_cnt") (buf ++ [specRecord s.now data])
          refine ⟨⟨[specRecord s.now data] ++ extra, ?_⟩, ?_, ?_⟩
          · rw [hunf]; simpa using hex
          · rw [hunf]
            simp only [countP, List.filter_cons] at hlen ⊢
            simp [Event.isAppend] at hlen ⊢
            omega
          · intro r hr
            rw [hunf] at hr
            rcases hmem r hr with h | h
            · rcases List.mem_append.mp h with h | h
              · exact Or.inl h
              · right
                rw [List.mem_singleton.mp h]
                exact isObsRecord_specRecord s.now data
            · exact Or.inr h
        · have hunf : collect_spectrometer_data duration (s :: rest) prev buf
            = (.readData prev :: .sleep 1
                :: (collect_spectrometer_data duration rest prev buf).1,
               (collect_spectrometer_data duration rest prev buf).2) := by
            simp [collect_spectrometer_data, hc, hresp, spect_iteration, hk]
          obtain ⟨⟨extra, hex⟩, hlen, hmem⟩ := ih prev buf
          refine ⟨⟨extra, by rw [hunf]; exact hex⟩, ?_, ?_⟩
          · rw [hunf]
            simp only [countP, List.filter_cons] at hlen ⊢
            simp [Event.isAppend] at hlen ⊢
            omega
          · intro r hr
            rw [hunf] at hr
            exact hmem r hr
    · refine ⟨⟨[], by simp [collect_spectrometer_data, hc]⟩, ?_, ?_⟩
      · simp [collect_spectrometer_data, hc, countP, Event.isAppend]
      · intro r hr
        exact Or.inl (by simpa [collect_spectrometer_data, hc] using hr)

/-- Buffer evolution of the SDR polling loop: the buffer only grows by
appends, its final length equals the initial length plus the number of append
events in the trace, and every record present at the end was present
initially or is a well-formed observation record. -/
theorem sdr_buffer_facts (ns nb : Int) (duration : Rat) :
    ∀ steps buf,
      (∃ extra, (sdr_loop ns nb duration steps buf).2 = buf ++ extra) ∧
      ((sdr_loop ns nb duration steps buf).2.length
        = buf.length + countP Event.isAppend (sdr_loop ns nb duration steps buf).1) ∧
      (∀ r, r ∈ (sdr_loop ns nb duration steps buf).2 →
         r ∈ buf ∨ isObsRecord r = true) := by
  intro steps
  induction steps with
  | nil =>
    intro buf
    refine ⟨⟨[], by simp [sdr_loop]⟩, ?_, ?_⟩
    · simp [sdr_loop, countP]
    · intro r hr; exact Or.inl (by simpa [sdr_loop] using hr)
  | cons s rest ih =>
    intro buf
    by_cases hc : s.elapsed < duration ∧ s.flagSet = false
    · cases hcap : s.captureResult with
      | error e =>
        refine ⟨⟨[], by simp [sdr_loop, hc, hcap]⟩, ?_, ?_⟩
        · simp [sdr_loop, hc, hcap, countP, Event.isAppend]
        · intro r hr
          exact Or.inl (by simpa [sdr_loop, hc, hcap] using hr)
      | ok payload =>
        have hunf : sdr_loop ns nb duration (s :: rest) buf
          = (.captureData ns nb :: .append (sdrRecord s.now payload) :: .sleep 1
              :: (sdr_loop ns nb duration rest (buf ++ [sdrRecord s.now payload])).1,
             (sdr_loop ns nb duration rest (buf ++ [sdrRecord s.now payload])).2) := by
          simp [sdr_loop, hc, hcap]
        obtain ⟨⟨extra, hex⟩, hlen, hmem⟩ := ih (buf ++ [sdrRecord s.now payload])
        refine ⟨⟨[sdrRecord s.now payload] ++ extra, ?_⟩, ?_, ?_⟩
        · rw [hunf]; simpa using hex
        · rw [hunf]
          simp only [countP, List.filter_cons] at hlen ⊢
          simp [Event.isAppend] at hlen ⊢
          omega
        · intro r hr
          rw [hunf] at hr
          rcases hmem r hr with h | h
          · rcases List.mem_append.mp h with h | h
            · exact Or.inl h
            · right
              rw [List.mem_singleton.mp h]
              exact isObsRecord_sdrRecord s.now payload
          · exact Or.inr h
    · refine ⟨⟨[], by simp [sdr_loop, hc]⟩, ?_, ?_⟩
      · simp [sdr_loop, hc, countP, Event.isAppend]
      · intro r hr
        exact Or.inl (by simpa [sdr_loop, hc] using hr)

/-- C4: for every schedule of the acquisition loops, the buffer only changes
by appending — the initial buffer stays a prefix, so no record is ever
mutated or removed; the buffer length after the run equals the initial length
plus the number of append events (so N appends from an empty buffer leave
exactly N records); and every record that was not already present is a
well-formed observation record carrying a `time` field and exactly one of the
payload keys `spectra` / `sdr`. -/
theorem C4_buffer_append_only_wellformed :
    (∀ duration steps prev buf,
       (∃ extra, (collect_spectrometer_data duration steps prev buf).2 = buf ++ extra) ∧
       ((collect_spectrometer_data duration steps prev buf).2.length
         = buf.length
           + countP Event.isAppend (collect_spectrometer_data duration steps prev buf).1) ∧
       (∀ r, r ∈ (collect_spectrometer_data duration steps prev buf).2 →
          r ∈ buf ∨ isObsRecord r = true)) ∧
    (∀ ns nb duration steps buf,
       (∃ extra, (sdr_loop ns nb duration steps buf).2 = buf ++ extra) ∧
       ((sdr_loop ns nb duration steps buf).2.length
         = buf.length + countP Event.isAppend (sdr_loop ns nb duration steps buf).1) ∧
       (∀ r, r ∈ (sdr_loop ns nb duration steps buf).2 →
          r ∈ buf ∨ isObsRecord r = true)) :=
  ⟨fun duration steps prev buf => spect_buffer_facts duration steps prev buf,
   fun ns nb duration steps buf => sdr_buffer_facts ns nb duration steps buf⟩

theorem C4_witness :
    ((collect_spectrometer_data 5
        [⟨0, false, .ok [("acc_cnt", Json.num 1)], Json.null⟩] none []).2.length
      = 0 + countP Event.isAppend
          (collect_spectrometer_data 5
            [⟨0, false, .ok [("acc_cnt", Json.num 1)], Json.null⟩] none []).1) ∧
    (specRecord Json.null [("acc_cnt", Json.num 1)] ∈ ([] : List Json) ∨
      isObsRecord (specRecord Json.null [("acc_cnt", Json.num 1)]) = true) := by
  constructor
  · exact (C4_buffer_append_only_wellformed.1 5
      [⟨0, false, .ok [("acc_cnt", Json.num 1)], Json.null⟩] none []).2.1
  · exact (C4_buffer_append_only_wellformed.1 5
      [⟨0, false, .ok [("acc_cnt", Json.num 1)], Json.null⟩] none []).2.2
      (specRecord Json.null [("acc_cnt", Json.num 1)]) (by
        show specRecord Json.null [("acc_cnt", Json.num 1)]
          ∈ [specRecord Json.null [("acc_cnt", Json.num 1)]]
        exact List.mem_singleton.mpr rfl)

/-- Every completed snapshot rewrite in a writer run writes exactly the
serialization of the buffer observed while holding the lock at some scheduled
iteration. -/
theorem save_fileWrite_shape :
    ∀ steps file toks, Event.fileWrite toks ∈ (save_data_periodically steps file).1 →
      ∃ s, s ∈ steps ∧ toks = Json.toTokens (.arr s.bufAtLock) := by
  intro steps
  induction steps with
  | nil => intro file toks h; simp [save_data_periodically] at h
  | cons s rest ih =>
    intro file toks h
    by_cases hf : s.flagSet
    · simp [save_data_periodically, hf] at h
    · cases hw : s.writeOk with
      | error e =>
        have : (save_data_periodically (s :: rest) file).1
            = [.writeAttempt, .print ("Error saving data: " ++ e)] := by
          simp [save_data_periodically, hf, hw]
        rw [this] at h
        simp at h
      | ok u =>
        have : (save_data_periodically (s :: rest) file).1
            = .writeAttempt :: .fileWrite (Json.toTokens (.arr s.bufAtLock))
                :: .print "Data saved successfully." :: .sleep 10
                :: (save_data_periodically rest (Json.toTokens (.arr s.bufAtLock))).1 := by
          simp [save_data_periodically, hf, hw]
        rw [this] at h
        simp only [List.mem_cons] at h
        obtain h | h | h | h | h := h
        · exact absurd h (by simp)
        · exact ⟨s, by simp, by injection h⟩
        · exact absurd h (by simp)
        · exact absurd h (by simp)
        · obtain ⟨s', hs', ht⟩ := ih _ _ h
          exact ⟨s', by simp [hs'], ht⟩

/-- The writer's event trace does not depend on the previous contents of the
snapshot file. -/
theorem save_trace_indep :
    ∀ steps f₀ f₁, (save_data_periodically steps f₀).1 = (save_data_periodically steps f₁).1 := by
  intro steps
  induction steps with
  | nil => intro f₀ f₁; rfl
  | cons s rest ih =>
    intro f₀ f₁
    by_cases hf : s.flagSet
    · simp [save_data_periodically, hf]
    · cases hw : s.writeOk with
      | error e => simp [save_data_periodically, hf, hw]
      | ok u => simp [save_data_periodically, hf, hw]

/-- C5: after every snapshot rewrite the file holds exactly the serialization
of the buffer observed while the writer held the lock, and that token stream
parses back to the JSON array of those buffer contents; moreover each rewrite
fully overwrites the file: the trace never depends on the prior file
contents, and as soon as one rewrite has happened the final file contents are
independent of whatever the file held before the run. -/
theorem C5_snapshot_roundtrip_overwrite :
    (∀ steps file toks, Event.fileWrite toks ∈ (save_data_periodically steps file).1 →
       ∃ s, s ∈ steps ∧ toks = Json.toTokens (.arr s.bufAtLock) ∧
         Json.parse toks = some (.arr s.bufAtLock)) ∧
    (∀ steps f₀ f₁, (save_data_periodically steps f₀).1 = (save_data_periodically steps f₁).1) ∧
    (∀ steps f₀ f₁, (∃ toks, Event.fileWrite toks ∈ (save_data_periodically steps f₀).1) →
       (save_data_periodically steps f₀).2 = (save_data_periodically steps f₁).2) := by
  refine ⟨?_, save_trace_indep, ?_⟩
  · intro steps file toks h
    obtain ⟨s, hs, ht⟩ := save_fileWrite_shape steps file toks h
    exact ⟨s, hs, ht, by rw [ht]; exact Json.parse_toTokens (.arr s.bufAtLock)⟩
  · intro steps
    induction steps with
    | nil =>
      intro f₀ f₁ h
      obtain ⟨toks, h⟩ := h
      simp [save_data_periodically] at h
    | cons s rest ih =>
      intro f₀ f₁ h
      by_cases hf : s.flagSet
      · obtain ⟨toks, h⟩ := h
        simp [save_data_periodically, hf] at h
      · cases hw : s.writeOk with
        | error e =>
          obtain ⟨toks, h⟩ := h
          have : (save_data_periodically (s :: rest) f₀).1
              = [.writeAttempt, .print ("Error saving data: " ++ e)] := by
            simp [save_data_periodically, hf, hw]
          rw [this] at h
          simp at h
        | ok u =>
          simp [save_data_periodically, hf, hw]

theorem C5_witness :
    ∃ s, s ∈ [SaveStep.mk false [Json.num 7] (.ok ())] ∧
      [Tok.lbrack, Tok.tnum 7, Tok.rbrack] = Json.toTokens (.arr s.bufAtLock) ∧
      Json.parse [Tok.lbrack, Tok.tnum 7, Tok.rbrack] = some (.arr s.bufAtLock) := by
  refine C5_snapshot_roundtrip_overwrite.1 [SaveStep.mk false [Json.num 7] (.ok ())] []
      [Tok.lbrack, Tok.tnum 7, Tok.rbrack] ?_
  show Event.fileWrite [Tok.lbrack, Tok.tnum 7, Tok.rbrack]
      ∈ (save_data_periodically [SaveStep.mk false [Json.num 7] (.ok ())] []).1
  have : (save_data_periodically [SaveStep.mk false [Json.num 7] (.ok ())] []).1
      = [.writeAttempt, .fileWrite [Tok.lbrack, Tok.tnum 7, Tok.rbrack],
         .print "Data saved successfully.", .sleep 10] := rfl
  rw [this]
  simp

/-- The pointing loop never sets the termination flag and never appends to the
buffer: its trace contains no `setFlag` and no `append` event. -/
theorem point_no_setFlag_no_append (ta tz : Rat) :
    ∀ steps, countP Event.isSetFlag (point_telescope ta tz steps) = 0 ∧
      countP Event.isAppend (point_telescope ta tz steps) = 0 := by
  intro steps
  induction steps with
  | nil => exact ⟨rfl, rfl⟩
  | cons s rest ih =>
    by_cases hf : s.flagSet
    · simp [point_telescope, hf, countP]
    · cases hp : s.pointResult with
      | error e => simp [point_telescope, hf, hp, countP, Event.isSetFlag, Event.isAppend]
      | ok u =>
        obtain ⟨ih1, ih2⟩ := ih
        constructor
        · simpa [point_telescope, hf, hp, countP, Event.isSetFlag] using ih1
        · simpa [point_telescope, hf, hp, countP, Event.isAppend] using ih2

/-- C6: when a pointing-adapter call raises, the pointing loop logs the error
and exits — it does not retry (all later scheduled steps are irrelevant) and
it never sets the termination flag; and the spectrometer and SDR loops, whose
own flag observations stay false, still perform their appends. -/
theorem C6_pointing_error_isolated (ta tz : Rat) (s : PointStep) (rest : List PointStep)
    (e : String) (hf : s.flagSet = false) (he : s.pointResult = .error e) :
    (point_telescope ta tz (s :: rest)
       = [.point ta tz, .print ("Telescope error: " ++ e)]) ∧
    (∀ pre, point_telescope ta tz (pre ++ s :: rest) = point_telescope ta tz (pre ++ [s])) ∧
    (∀ steps, countP Event.isSetFlag (point_telescope ta tz steps) = 0) ∧
    (∀ duration (s' : SpectStep) rest' prev buf data,
       s'.elapsed < duration → s'.flagSet = false → s'.response = .ok data →
       hasKey data "acc_cnt" = true →
       1 ≤ countP Event.isAppend (collect_spectrometer_data duration (s' :: rest') prev buf).1) ∧
    (∀ ns nb duration (s' : SdrStep) rest' buf p,
       s'.elapsed < duration → s'.flagSet = false → s'.captureResult = .ok p →
       1 ≤ countP Event.isAppend (sdr_loop ns nb duration (s' :: rest') buf).1) := by
  refine ⟨?_, ?_, ?_, ?_, ?_⟩
  · simp [point_telescope, hf, he]
  · intro pre
    exact point_stop ta tz s (Or.inr ⟨e, he⟩) pre rest
  · intro steps
    exact (point_no_setFlag_no_append ta tz steps).1
  · intro duration s' rest' prev buf data hd hfl hr hk
    have hunf : (collect_spectrometer_data duration (s' :: rest') prev buf).1
        = .readData prev :: .append (specRecord s'.now data)
            :: .sleep 1 :: (collect_spectrometer_data duration rest'
                 (data.lookup "acc_cnt") (buf ++ [specRecord s'.now data])).1 := by
      simp [collect_spectrometer_data, hd, hfl, hr, spect_iteration, hk]
    rw [hunf]
    simp [countP, Event.isAppend]
  · intro ns nb duration s' rest' buf p hd hfl hc
    have hunf : (sdr_loop ns nb duration (s' :: rest') buf).1
        = .captureData ns nb :: .append (sdrRecord s'.now p) :: .sleep 1
            :: (sdr_loop ns nb duration rest' (buf ++ [sdrRecord s'.now p])).1 := by
      simp [sdr_loop, hd, hfl, hc]
    rw [hunf]
    simp [countP, Event.isAppend]

theorem C6_witness :
    point_telescope 10 20 [⟨false, .error "motor fault"⟩, ⟨false, .ok ()⟩]
      = [.point 10 20, .print "Telescope error: motor fault"] ∧
    1 ≤ countP Event.isAppend
        (sdr_loop 1 2 5 [⟨0, false, .ok Json.null, Json.null⟩] []).1 := by
  constructor
  · exact (C6_pointing_error_isolated 10 20 ⟨false, .error "motor fault"⟩
      [⟨false, .ok ()⟩] "motor fault" rfl rfl).1
  · exact (C6_pointing_error_isolated 10 20 ⟨false, .error "motor fault"⟩
      [⟨false, .ok ()⟩] "motor fault" rfl rfl).2.2.2.2 1 2 5
      ⟨0, false, .ok Json.null, Json.null⟩ [] [] Json.null (by norm_num) rfl rfl

/-- Counting events distributes over trace concatenation. -/
theorem countP_append (p : Event → Bool) (a b : List Event) :
    countP p (a ++ b) = countP p a + countP p b := by
  simp [countP, List.filter_append]

/-- If one of the three acquisition-parameter conversions fails, the setup
aborts with an input-error message. -/
theorem acquisitionPrompts_abort (ta tz : Rat) (inp : Inputs)
    (h : ((parseInt? inp.nsamples).isNone || (parseInt? inp.nblocks).isNone ||
          (parseFloat? inp.duration).isNone) = true) :
    ∃ m, acquisitionPrompts ta tz inp = .aborted ("Input error: " ++ m) := by
  unfold acquisitionPrompts
  cases hns : parseInt? inp.nsamples with
  | none => exact ⟨_, rfl⟩
  | some ns =>
    cases hnb : parseInt? inp.nblocks with
    | none => exact ⟨_, rfl⟩
    | some nb =>
      cases hdu : parseFloat? inp.duration with
      | none => exact ⟨_, rfl⟩
      | some du => simp [hns, hnb, hdu] at h

/-- If some prompt reached in the taken branch receives input that fails its
conversion, the setup outcome is an abort with an input-error message. -/
theorem setup_abort_message (env : SessionEnv) (inp : Inputs)
    (h : somePromptMalformed inp = true) :
    ∃ m, (session_setup env inp).1 = .aborted ("Input error: " ++ m) := by
  unfold somePromptMalformed at h
  unfold session_setup
  by_cases hsun : strYes inp.observe_sun
  · simp only [hsun, if_true] at h ⊢
    exact acquisitionPrompts_abort _ _ inp h
  · by_cases hpc : strYes inp.process_coords
    · simp only [hsun, hpc, Bool.not_true, Bool.not_false, Bool.false_and, Bool.true_and,
        Bool.and_true, if_false, if_true, Bool.not_eq_true] at h ⊢
      cases hra : parseFloat? inp.ra with
      | none => exact ⟨_, rfl⟩
      | some ra =>
        cases hdec : parseFloat? inp.dec with
        | none => exact ⟨_, rfl⟩
        | some dec =>
          simp only [hra, hdec, Option.isNone_some, Bool.false_or] at h
          exact acquisitionPrompts_abort _ _ inp h
    · simp only [hsun, hpc, Bool.not_true, Bool.not_false, Bool.false_and, Bool.true_and,
        Bool.and_false, if_false, Bool.not_eq_true] at h ⊢
      cases halt : parseFloat? inp.alt with
      | none => exact ⟨_, rfl⟩
      | some ta =>
        cases haz : parseFloat? inp.az with
        | none => exact ⟨_, rfl⟩
        | some tz =>
          simp only [halt, haz, Option.isNone_some, Bool.false_or] at h
          exact acquisitionPrompts_abort _ _ inp h

/-- Setup-phase events are only coordinate conversions and prints: no thread
start, no snapshot-file activity. -/
theorem setup_events_clean (env : SessionEnv) (inp : Inputs) :
    countP Event.isThreadStart (session_setup env inp).2 = 0 ∧
    countP Event.isWriteAttempt (session_setup env inp).2 = 0 ∧
    countP Event.isFileWrite (session_setup env inp).2 = 0 := by
  unfold session_setup
  by_cases hsun : strYes inp.observe_sun
  · simp [hsun, countP, Event.isThreadStart, Event.isWriteAttempt, Event.isFileWrite]
  · by_cases hpc : strYes inp.process_coords
    · simp only [hsun, hpc, Bool.not_true, Bool.not_false, Bool.true_and, if_false, if_true]
      cases hra : parseFloat? inp.ra with
      | none => exact ⟨rfl, rfl, rfl⟩
      | some ra =>
        cases hdec : parseFloat? inp.dec with
        | none => exact ⟨rfl, rfl, rfl⟩
        | some dec =>
          simp [countP, Event.isThreadStart, Event.isWriteAttempt, Event.isFileWrite]
    · simp only [hsun, hpc, Bool.not_true, Bool.not_false, Bool.true_and, Bool.and_false,
        if_false]
      cases halt : parseFloat? inp.alt with
      | none => exact ⟨rfl, rfl, rfl⟩
      | some ta =>
        cases haz : parseFloat? inp.az with
        | none => exact ⟨rfl, rfl, rfl⟩
        | some tz => exact ⟨rfl, rfl, rfl⟩

/-- When the setup aborts, the session prints the error and exits: its whole
trace is the setup events followed by the error print. -/
theorem session_abort_shape (env : SessionEnv) (inp : Inputs) (ms : List MainStep)
    (msg : String) (h : (session_setup env inp).1 = .aborted msg) :
    session env inp ms = (session_setup env inp).2 ++ [.print msg] := by
  unfold session
  cases hs : session_setup env inp with
  | mk o evs =>
    cases o with
    | aborted m =>
      rw [hs] at h
      simp at h
      subst h
      rfl
    | ready ta tz ns nb du =>
      rw [hs] at h
      simp at h

/-- C7: whenever any numeric prompt reached in the taken branch receives
malformed input, the session aborts with an input-error message, and its
whole trace contains no thread start and no snapshot-file activity: the four
worker threads are never started and the snapshot file is never written. -/
theorem C7_invalid_input_aborts_before_threads (env : SessionEnv) (inp : Inputs)
    (mainSteps : List MainStep) (h : somePromptMalformed inp = true) :
    (∃ m, (session_setup env inp).1 = .aborted ("Input error: " ++ m)) ∧
    countP Event.isThreadStart (session env inp mainSteps) = 0 ∧
    countP Event.isWriteAttempt (session env inp mainSteps) = 0 ∧
    countP Event.isFileWrite (session env inp mainSteps) = 0 := by
  obtain ⟨m, hm⟩ := setup_abort_message env inp h
  have hshape := session_abort_shape env inp mainSteps _ hm
  obtain ⟨h1, h2, h3⟩ := setup_events_clean env inp
  refine ⟨⟨m, hm⟩, ?_, ?_, ?_⟩ <;> rw [hshape, countP_append]
  · rw [h1]; rfl
  · rw [h2]; rfl
  · rw [h3]; rfl

theorem C7_witness :
    (∃ m, (session_setup
        ⟨0, fun _ => (0, 0), 0, fun _ _ _ _ _ _ => (0, 0)⟩
        ⟨"no", "yes", "abc", "1", "1", "1", "1", "1", "1"⟩).1
      = .aborted ("Input error: " ++ m)) ∧
    countP Event.isThreadStart (session
        ⟨0, fun _ => (0, 0), 0, fun _ _ _ _ _ _ => (0, 0)⟩
        ⟨"no", "yes", "abc", "1", "1", "1", "1", "1", "1"⟩ []) = 0 ∧
    countP Event.isWriteAttempt (session
        ⟨0, fun _ => (0, 0), 0, fun _ _ _ _ _ _ => (0, 0)⟩
        ⟨"no", "yes", "abc", "1", "1", "1", "1", "1", "1"⟩ []) = 0 ∧
    countP Event.isFileWrite (session
        ⟨0, fun _ => (0, 0), 0, fun _ _ _ _ _ _ => (0, 0)⟩
        ⟨"no", "yes", "abc", "1", "1", "1", "1", "1", "1"⟩ []) = 0 :=
  C7_invalid_input_aborts_before_threads
    ⟨0, fun _ => (0, 0), 0, fun _ _ _ _ _ _ => (0, 0)⟩
    ⟨"no", "yes", "abc", "1", "1", "1", "1", "1", "1"⟩ [] (by decide)

/-- Events of the SDR polling loop: it never constructs a handle itself, every
capture call passes exactly the configured `nsamples`/`nblocks`, every sleep
is one second, and every appended record is `{time, sdr}`-shaped from a
scheduled step's capture payload. -/
theorem sdr_loop_events (ns nb : Int) (duration : Rat) :
    ∀ steps buf, countP Event.isSdrConstruct (sdr_loop ns nb duration steps buf).1 = 0 ∧
      ∀ e, e ∈ (sdr_loop ns nb duration steps buf).1 →
        (match e with
         | .captureData a b => a = ns ∧ b = nb
         | .sleep n => n = 1
         | .append r => ∃ s p, s ∈ steps ∧ s.captureResult = .ok p ∧ r = sdrRecord s.now p
         | .sdrConstruct => False
         | _ => True) := by
  intro steps
  induction steps with
  | nil =>
    intro buf
    exact ⟨rfl, by intro e he; simp [sdr_loop] at he⟩
  | cons s rest ih =>
    intro buf
    by_cases hc : s.elapsed < duration ∧ s.flagSet = false
    · cases hcap : s.captureResult with
      | error e0 =>
        have hunf : (sdr_loop ns nb duration (s :: rest) buf).1
            = [.captureData ns nb, .print ("SDR error: " ++ e0)] := by
          simp [sdr_loop, hc, hcap]
        refine ⟨by rw [hunf]; rfl, ?_⟩
        intro e he
        rw [hunf] at he
        rcases List.mem_cons.mp he with rfl | he
        · exact ⟨rfl, rfl⟩
        · rcases List.mem_singleton.mp he with rfl
          trivial
      | ok payload =>
        have hunf : (sdr_loop ns nb duration (s :: rest) buf).1
            = .captureData ns nb :: .append (sdrRecord s.now payload) :: .sleep 1
                :: (sdr_loop ns nb duration rest (buf ++ [sdrRecord s.now payload])).1 := by
          simp [sdr_loop, hc, hcap]
        obtain ⟨ihc, ihe⟩ := ih (buf ++ [sdrRecord s.now payload])
        constructor
        · rw [hunf]
          simpa [countP, Event.isSdrConstruct] using ihc
        · intro e he
          rw [hunf] at he
          rcases List.mem_cons.mp he with rfl | he
          · exact ⟨rfl, rfl⟩
          · rcases List.mem_cons.mp he with rfl | he
            · exact ⟨s, payload, by simp, hcap, rfl⟩
            · rcases List.mem_cons.mp he with rfl | he
              · rfl
              · have := ihe e he
                cases e with
                | append r =>
                  obtain ⟨s', p', hs', hp', hr'⟩ := this
                  exact ⟨s', p', by simp [hs'], hp', hr'⟩
                | _ => exact this
    · have hunf : (sdr_loop ns nb duration (s :: rest) buf).1
          = [.print "SDR finished collecting."] := by
        simp [sdr_loop, hc]
      refine ⟨by rw [hunf]; rfl, ?_⟩
      intro e he
      rw [hunf] at he
      rcases List.mem_singleton.mp he with rfl
      trivial

/-- C8: with a successfully constructed handle, the SDR loop's trace contains
exactly one handle construction; every capture call in it requests exactly
`nsamples` and `nblocks`; every sleep is one second; every appended record is
`{time: utc-at-that-iteration, sdr: payload}` for the payload captured at a
scheduled step; and each live iteration performs capture, append and a
one-second sleep in that order. -/
theorem C8_sdr_loop_contract (ns nb : Int) (duration : Rat)
    (steps : List SdrStep) (buf : List Json) :
    countP Event.isSdrConstruct (collect_sdr_data ns nb duration (.ok ()) steps buf).1 = 1 ∧
    (∀ e, e ∈ (collect_sdr_data ns nb duration (.ok ()) steps buf).1 →
       (match e with
        | .captureData a b => a = ns ∧ b = nb
        | .sleep n => n = 1
        | .append r => ∃ s p, s ∈ steps ∧ s.captureResult = .ok p ∧ r = sdrRecord s.now p
        | _ => True)) ∧
    (∀ (s : SdrStep) rest p buf', s.elapsed < duration → s.flagSet = false →
       s.captureResult = .ok p →
       sdr_loop ns nb duration (s :: rest) buf'
         = (.captureData ns nb :: .append (sdrRecord s.now p) :: .sleep 1 ::
             (sdr_loop ns nb duration rest (buf' ++ [sdrRecord s.now p])).1,
            (sdr_loop ns nb duration rest (buf' ++ [sdrRecord s.now p])).2)) := by
  obtain ⟨hc, he⟩ := sdr_loop_events ns nb duration steps buf
  refine ⟨?_, ?_, ?_⟩
  · show countP Event.isSdrConstruct
        (.sdrConstruct :: (sdr_loop ns nb duration steps buf).1) = 1
    simpa [countP, Event.isSdrConstruct] using hc
  · intro e hmem
    have hmem' : e = .sdrConstruct ∨ e ∈ (sdr_loop ns nb duration steps buf).1 :=
      List.mem_cons.mp hmem
    rcases hmem' with rfl | hmem'
    · trivial
    · have := he e hmem'
      cases e with
      | sdrConstruct => exact absurd this (by simp)
      | _ => exact this
  · intro s rest p buf' hd hf hcap
    simp [sdr_loop, hd, hf, hcap]

theorem C8_witness :
    countP Event.isSdrConstruct
      (collect_sdr_data 3 4 5 (.ok ())
        [⟨0, false, .ok (Json.num 9), Json.null⟩] []).1 = 1 ∧
    ((3 : Int) = 3 ∧ (4 : Int) = 4) := by
  constructor
  · exact (C8_sdr_loop_contract 3 4 5 [⟨0, false, .ok (Json.num 9), Json.null⟩] []).1
  · exact (C8_sdr_loop_contract 3 4 5 [⟨0, false, .ok (Json.num 9), Json.null⟩] []).2.1
      (Event.captureData 3 4) (by
        rw [show (collect_sdr_data 3 4 5 (.ok ())
            [⟨0, false, .ok (Json.num 9), Json.null⟩] []).1
          = [.sdrConstruct, .captureData 3 4,
             .append (sdrRecord Json.null (Json.num 9)), .sleep 1] from rfl]
        simp)

/-- C9: with a non-positive duration, the while condition of the spectrometer
and SDR loops is already false at the first check (elapsed time is
non-negative), so each loop performs zero hardware read/capture calls and
zero buffer appends before printing its completion message; the SDR loop
still constructs its one handle beforehand. -/
theorem C9_nonpositive_duration_no_calls (duration : Rat) (hdur : duration ≤ 0) :
    (∀ (s : SpectStep) rest prev buf, 0 ≤ s.elapsed →
       collect_spectrometer_data duration (s :: rest) prev buf
         = ([.print "Spectrometer finished collecting."], buf) ∧
       countP Event.isReadOrCapture
         (collect_spectrometer_data duration (s :: rest) prev buf).1 = 0 ∧
       countP Event.isAppend (collect_spectrometer_data duration (s :: rest) prev buf).1 = 0) ∧
    (∀ ns nb (s : SdrStep) rest buf, 0 ≤ s.elapsed →
       collect_sdr_data ns nb duration (.ok ()) (s :: rest) buf
         = ([.sdrConstruct, .print "SDR finished collecting."], buf) ∧
       countP Event.isReadOrCapture
         (collect_sdr_data ns nb duration (.ok ()) (s :: rest) buf).1 = 0 ∧
       countP Event.isAppend (collect_sdr_data ns nb duration (.ok ()) (s :: rest) buf).1 = 0) := by
  constructor
  · intro s rest prev buf hel
    have hc : ¬ (s.elapsed < duration ∧ s.flagSet = false) := by
      rintro ⟨hlt, -⟩
      exact absurd (lt_of_le_of_lt hel hlt) (not_lt.mpr hdur)
    have hunf : collect_spectrometer_data duration (s :: rest) prev buf
        = ([.print "Spectrometer finished collecting."], buf) := by
      simp [collect_spectrometer_data, hc]
    exact ⟨hunf, by rw [hunf]; rfl, by rw [hunf]; rfl⟩
  · intro ns nb s rest buf hel
    have hc : ¬ (s.elapsed < duration ∧ s.flagSet = false) := by
      rintro ⟨hlt, -⟩
      exact absurd (lt_of_le_of_lt hel hlt) (not_lt.mpr hdur)
    have hunf : collect_sdr_data ns nb duration (.ok ()) (s :: rest) buf
        = ([.sdrConstruct, .print "SDR finished collecting."], buf) := by
      simp [collect_sdr_data, sdr_loop, hc]
    exact ⟨hunf, by rw [hunf]; rfl, by rw [hunf]; rfl⟩

theorem C9_witness :
    collect_spectrometer_data 0 [⟨0, false, .ok [("acc_cnt", Json.num 1)], Json.null⟩] none []
      = ([.print "Spectrometer finished collecting."], []) ∧
    collect_sdr_data 3 4 0 (.ok ()) [⟨0, false, .ok (Json.num 9), Json.null⟩] []
      = ([.sdrConstruct, .print "SDR finished collecting."], []) := by
  constructor
  · exact ((C9_nonpositive_duration_no_calls 0 le_rfl).1
      ⟨0, false, .ok [("acc_cnt", Json.num 1)], Json.null⟩ [] none [] le_rfl).1
  · exact ((C9_nonpositive_duration_no_calls 0 le_rfl).2
      3 4 ⟨0, false, .ok (Json.num 9), Json.null⟩ [] [] le_rfl).1

/-- The main wait loop performs no coordinate conversion. -/
theorem main_wait_no_altaz (duration : Rat) :
    ∀ ms ra dec jd lat lon alt,
      Event.getAltAz ra dec jd lat lon alt ∉ main_wait duration ms := by
  intro ms
  induction ms with
  | nil => intro ra dec jd lat lon alt h; simp [main_wait] at h
  | cons s rest ih =>
    intro ra dec jd lat lon alt h
    by_cases hd : s.elapsed < duration
    · by_cases hi : s.interrupt
      · simp [main_wait, hd, hi] at h
      · rw [show main_wait duration (s :: rest)
            = .sleep 1 :: main_wait duration rest from by simp [main_wait, hd, hi]] at h
        rcases List.mem_cons.mp h with h | h
        · exact absurd h (by simp)
        · exact ih ra dec jd lat lon alt h
    · simp [main_wait, hd] at h

/-- Every coordinate conversion performed during setup uses the hard-coded
Berkeley observer location. -/
theorem setup_altaz_fixed (env : SessionEnv) (inp : Inputs) (ra dec jd lat lon alt : Rat)
    (h : Event.getAltAz ra dec jd lat lon alt ∈ (session_setup env inp).2) :
    lat = berkeley_lat ∧ lon = berkeley_lon ∧ alt = berkeley_alt := by
  unfold session_setup at h
  by_cases hsun : strYes inp.observe_sun
  · simp only [hsun, if_true] at h
    rcases List.mem_cons.mp h with h | h
    · injection h with h1 h2 h3 h4 h5 h6
      exact ⟨h4, h5, h6⟩
    · rcases List.mem_singleton.mp h with h
      exact absurd h (by simp)
  · by_cases hpc : strYes inp.process_coords
    · simp only [hsun, hpc, Bool.not_true, Bool.not_false, Bool.true_and, if_false, if_true] at h
      cases hra : parseFloat? inp.ra with
      | none => rw [hra] at h; simp at h
      | some r =>
        rw [hra] at h
        cases hdec : parseFloat? inp.dec with
        | none => rw [hdec] at h; simp at h
        | some d =>
          rw [hdec] at h
          rcases List.mem_singleton.mp h with h
          injection h with h1 h2 h3 h4 h5 h6
          exact ⟨h4, h5, h6⟩
    · simp only [hsun, hpc, Bool.not_true, Bool.not_false, Bool.true_and, Bool.and_false,
        if_false] at h
      cases halt : parseFloat? inp.alt with
      | none => rw [halt] at h; simp at h
      | some ta =>
        rw [halt] at h
        cases haz : parseFloat? inp.az with
        | none => rw [haz] at h; simp at h
        | some tz => rw [haz] at h; simp at h

/-- C10: in every session, every call of the alt/az conversion — whichever
branch performs it and whatever the user typed — passes the hard-coded
Berkeley observer location (latitude 37.8716, longitude -122.2727,
altitude 0); no user input can change the observer location. -/
theorem C10_fixed_observer_location (env : SessionEnv) (inp : Inputs)
    (mainSteps : List MainStep) (ra dec jd lat lon alt : Rat)
    (h : Event.getAltAz ra dec jd lat lon alt ∈ session env inp mainSteps) :
    lat = berkeley_lat ∧ lon = berkeley_lon ∧ alt = berkeley_alt := by
  unfold session at h
  cases hs : session_setup env inp with
  | mk o evs =>
    rw [hs] at h
    have hevs : evs = (session_setup env inp).2 := by rw [hs]
    cases o with
    | aborted m =>
      rcases List.mem_append.mp h with h | h
      · exact setup_altaz_fixed env inp ra dec jd lat lon alt (hevs ▸ h)
      · rcases List.mem_singleton.mp h with h
        exact absurd h (by simp)
    | ready ta tz ns nb du =>
      rcases List.mem_append.mp h with h | h
      · rcases List.mem_append.mp h with h | h
        · rcases List.mem_append.mp h with h | h
          · exact setup_altaz_fixed env inp ra dec jd lat lon alt (hevs ▸ h)
          · simp at h
        · exact absurd h (main_wait_no_altaz du mainSteps ra dec jd lat lon alt)
      · rcases List.mem_singleton.mp h with h
        exact absurd h (by simp)

theorem C10_witness :
    berkeley_lat = berkeley_lat ∧ berkeley_lon = berkeley_lon ∧
      berkeley_alt = berkeley_alt := by
  refine C10_fixed_observer_location
      ⟨0, fun _ => (0, 0), 0, fun _ _ _ _ _ _ => (0, 0)⟩
      ⟨"yes", "no", "1", "1", "1", "1", "1", "1", "1"⟩ []
      0 0 0 berkeley_lat berkeley_lon berkeley_alt ?_
  rw [show session ⟨0, fun _ => (0, 0), 0, fun _ _ _ _ _ _ => (0, 0)⟩
      ⟨"yes", "no", "1", "1", "1", "1", "1", "1", "1"⟩ []
    = [.getAltAz 0 0 0 berkeley_lat berkeley_lon berkeley_alt, .print "Sun Position",
       .threadStart "telescope_thread", .threadStart "spectrometer_thread",
       .threadStart "sdr_thread", .threadStart "save_thread",
       .print "Data collection completed."] from rfl]
  exact List.mem_cons_self _ _
